import Mathlib

/-!
Shallow embedding of the tool-augmented lesson-plan generator in `src/server.js`
(an Express app driving an OpenAI "responses" loop with an `image_search`
capability, plus an in-memory lesson store).

External effects (the model service, the Wikimedia Commons image API, clocks,
UUIDs) are modelled as explicit oracle parameters; JavaScript values that may
be absent (`undefined`/`null`) are modelled with `Option`; weakly typed JSON
payloads are modelled with an inductive `Json` type, and `JSON.parse` of a
string payload is modelled by the `Option Json` outcome of the parse.
-/

namespace LlmEdu

/-- Weakly typed JSON-ish values, as produced by `JSON.parse` or passed by the
model in `call.arguments`. -/
inductive Json where
  | null : Json
  | bool (b : Bool) : Json
  | num (n : Int) : Json
  | str (s : String) : Json
  | arr (elems : List Json) : Json
  | obj (fields : List (String × Json)) : Json

/-- JavaScript property access `v.k` on a parsed value: defined only on
objects, `none` models `undefined`. -/
def jsonGet (v : Json) (k : String) : Option Json :=
  match v with
  | .obj fields => (fields.find? (fun e => e.1 = k)).map (fun e => e.2)
  | _ => none

/-! ## UploadDigest (`summarizeUploads`, server.js lines 60-66 and 135-137) -/

/-- An uploaded file as multer presents it: a name and a buffer decoded as
UTF-8 text (binary data decodes best-effort; we model the decoded text). -/
structure UploadFile where
  originalname : String
  buffer : String

/-- `file.buffer.toString("utf8").slice(0, 4000)`: the decoded text truncated
to its first 4000 characters. -/
def rawTextOf (f : UploadFile) : String :=
  String.mk (f.buffer.data.take 4000)

/-- `summarizeUploads` (server.js lines 60-66): one `File: <name>\n<text>`
block per file, joined with blank lines. -/
def summarizeUploads (files : List UploadFile) : String :=
  String.intercalate "\n\n"
    (files.map (fun f => "File: " ++ f.originalname ++ "\n" ++ rawTextOf f))

/-- `contextFromFiles` (server.js lines 135-137):
`req.files?.length ? summarizeUploads(req.files) : "No uploaded files provided."`. -/
def contextFromFiles (files : List UploadFile) : String :=
  if files.length ≠ 0 then summarizeUploads files else "No uploaded files provided."

/-! ## PromptBuilder (server.js lines 122-144) -/

/-- The fields destructured from `req.body` (multipart form fields; every one
may be absent, and is a string when present). -/
structure GenerationRequest where
  topic : Option String
  gradeLevel : Option String
  duration : Option String
  objectives : Option String
  includeWebSearch : Option String
  imageSearchQuery : Option String
  youtubeUrl : Option String

/-- JavaScript `x || ""` for an optional string: `""` when absent (and `"" || ""`
is `""`, so the empty string maps to itself). -/
def orEmpty (x : Option String) : String :=
  match x with
  | some s => s
  | none => ""

/-- `topic || "lesson"`: falsy (absent or empty) topics fall back to "lesson". -/
def topicOrLesson (topic : Option String) : String :=
  match topic with
  | some t => if t = "" then "lesson" else t
  | none => "lesson"

/-- The templated default image query derived from the topic:
`` `${topic || "lesson"} classroom illustration` ``. -/
def defaultImageQuery (topic : Option String) : String :=
  topicOrLesson topic ++ " classroom illustration"

/-- `resolvedImageQuery = imageSearchQuery?.trim() || default` (server.js
lines 132-133): the trimmed caller query when it is non-empty, otherwise the
templated default. -/
def resolveImageQuery (imageSearchQuery : Option String) (topic : Option String) : String :=
  match imageSearchQuery with
  | some s => if s.trim = "" then defaultImageQuery topic else s.trim
  | none => defaultImageQuery topic

/-- `systemPrompt` (server.js lines 139-142), a constant. -/
def systemPrompt : String :=
  "You are an assistant for teachers. Create structured lesson plans with citations. " ++
  "If you use facts from web search, cite them inline like [1], [2]. " ++
  "You may call the image_search tool to find image URLs and include them."

/-- `userPrompt` (server.js line 144): the template literal over the request
fields, the upload digest and the resolved image query. -/
def userPrompt (r : GenerationRequest) (contextFromFiles : String)
    (resolvedImageQuery : String) : String :=
  "Build a lesson plan in markdown with sections: Overview, \"Learning Objectives\", " ++
  "\"Materials\", \"Lesson Steps\", \"Assessment\", and \"Homework\".\n\n" ++
  "Topic: " ++ orEmpty r.topic ++ "\n" ++
  "Grade level: " ++ orEmpty r.gradeLevel ++ "\n" ++
  "Duration: " ++ orEmpty r.duration ++ "\n" ++
  "Objectives: " ++ orEmpty r.objectives ++ "\n\n" ++
  "Include any relevant citations for facts.\n\n" ++
  "Uploaded context for RAG:\n" ++ contextFromFiles ++ "\n\n" ++
  "If images are requested, call image_search with this query: " ++ resolvedImageQuery ++ "\n" ++
  "YouTube link to include (if any): " ++ orEmpty r.youtubeUrl

/-! ## ToolRegistry (server.js lines 146-161) -/

/-- Schema of one parameter in a function tool descriptor. -/
structure ParamSchema where
  type : String
  default : Option Json

/-- One entry of the `tools` array sent to the model. -/
structure ToolDescriptor where
  type : String
  name : Option String
  description : Option String
  properties : List (String × ParamSchema)
  required : List String

/-- The `{ type: "web_search" }` descriptor. -/
def webSearchTool : ToolDescriptor :=
  { type := "web_search", name := none, description := none, properties := [], required := [] }

/-- The `image_search` function descriptor (server.js lines 148-160). -/
def imageSearchTool : ToolDescriptor :=
  { type := "function"
  , name := some "image_search"
  , description := some "Search for classroom-safe images and return direct URLs."
  , properties :=
      [ ("query", { type := "string", default := none })
      , ("count", { type := "number", default := some (Json.num 4) }) ]
  , required := ["query"] }

/-- The `tools` array (server.js lines 146-161): web search iff
`includeWebSearch === "true"`, then always `image_search`. -/
def makeTools (includeWebSearch : Option String) : List ToolDescriptor :=
  (if includeWebSearch = some "true" then [webSearchTool] else []) ++ [imageSearchTool]

/-! ## ImageSearchClient (`performImageSearch`, server.js lines 23-51) -/

/-- One element of a page's `imageinfo` array (`iiprop: "url"`). -/
structure ImageInfo where
  url : String

/-- One page of the Wikimedia response (`Object.values(payload.query.pages)`);
a missing `imageinfo` field is modelled as the empty list (both are falsy
under `page.imageinfo?.length`). -/
structure WikiPage where
  title : String
  imageinfo : List ImageInfo

/-- The upstream HTTP exchange as the session observes it: `response.ok` and
the decoded page list. -/
structure UpstreamResponse where
  ok : Bool
  pages : List WikiPage

/-- The normalized result object built per page (server.js lines 46-50); `url`
is `Option` because `page.imageinfo[0]` is only defined when `imageinfo` is
non-empty. -/
structure ImageResult where
  title : String
  url : Option String
  pageUrl : String

/-- The mapping step of `performImageSearch`: `page.imageinfo[0].url` is
modelled by the head of the `imageinfo` list. -/
def pageToResult (page : WikiPage) : ImageResult :=
  { title := page.title
  , url := page.imageinfo.head?.map ImageInfo.url
  , pageUrl := "https://commons.wikimedia.org/wiki/" ++ page.title }

/-- JS default parameter `count = 4` in `performImageSearch(query, count = 4)`:
applies exactly when the passed value is `undefined`. -/
def effectiveCount (count : Option Json) : Json :=
  count.getD (Json.num 4)

/-- `performImageSearch` (server.js lines 23-51) given the upstream exchange:
throws `"Image search failed."` iff `!response.ok`, otherwise filters pages
with a non-empty `imageinfo` and maps each to an `ImageResult`. The query and
count only shape the outgoing URL parameters, not the result processing. -/
def performImageSearch (query : Option Json) (count : Option Json)
    (resp : UpstreamResponse) : Except String (List ImageResult) :=
  if resp.ok then
    Except.ok ((resp.pages.filter (fun p => !p.imageinfo.isEmpty)).map pageToResult)
  else
    Except.error "Image search failed."

/-! ## GenerationSession (the `/api/ai/lesson` handler, server.js lines 116-215) -/

/-- The `arguments` field of a tool call. `stringPayload` is the case in which
`typeof call.arguments === "string"`; its `Option Json` is the outcome of
`JSON.parse` (`none` = the parse throws). `valuePayload none` covers the falsy
non-string values handled by `call.arguments || {}`. -/
inductive ToolArguments where
  | stringPayload (parsed : Option Json) : ToolArguments
  | valuePayload (v : Option Json) : ToolArguments

/-- One item of `response.output`; items whose `type` is `"tool_call"` or
`"function_call"` are the capability invocations. -/
structure ToolCall where
  type : String
  name : String
  call_id : String
  arguments : ToolArguments

/-- A model-service response as the handler consumes it. `output_text` is
`none` when absent (falsy, like the empty string, under `|| ""`). -/
structure ModelResponse where
  id : String
  output : List ToolCall
  output_text : Option String

/-- `collectToolCalls` (server.js lines 53-58). -/
def collectToolCalls (response : ModelResponse) : List ToolCall :=
  response.output.filter (fun item => item.type = "tool_call" || item.type = "function_call")

/-- The `args` computed for one invocation (server.js lines 181-189): a parsed
string payload is used as-is, a failed parse falls back to
`{ query: resolvedImageQuery }`, a non-string payload is used as-is with `{}`
for falsy values. -/
def resolveToolArgs (resolvedImageQuery : String) (a : ToolArguments) : Json :=
  match a with
  | .stringPayload (some v) => v
  | .stringPayload none => Json.obj [("query", Json.str resolvedImageQuery)]
  | .valuePayload (some v) => v
  | .valuePayload none => Json.obj []

/-- A record of one `performImageSearch` call: the `query` argument and the
count after the default parameter has applied. -/
structure SearchCall where
  query : Option Json
  count : Json

/-- One element of `toolOutputs` (server.js lines 191-194); the
`JSON.stringify({ results: images })` payload is modelled by the result list. -/
structure ToolOutput where
  tool_call_id : String
  results : List ImageResult

/-- What one round's `for (const call of toolCalls)` loop produced: the
outputs (or the error that aborted it), the image-search calls issued, and the
next upstream index. -/
structure RoundOutcome where
  result : Except String (List ToolOutput)
  searchCalls : List SearchCall
  nextSearchIdx : Nat

/-- The body of one round (server.js lines 176-195): skip invocations whose
name is not `"image_search"`, resolve arguments (with the parse-failure
fallback), perform the search, and push one output per recognized invocation.
A thrown `performImageSearch` error aborts the loop at that call. -/
def processCalls (resolvedImageQuery : String) (upstream : Nat → UpstreamResponse) :
    List ToolCall → Nat → RoundOutcome
  | [], idx => { result := Except.ok [], searchCalls := [], nextSearchIdx := idx }
  | call :: rest, idx =>
    if call.name = "image_search" then
      let args := resolveToolArgs resolvedImageQuery call.arguments
      let q := jsonGet args "query"
      let c := jsonGet args "count"
      let sc : SearchCall := { query := q, count := effectiveCount c }
      match performImageSearch q c (upstream idx) with
      | Except.error e =>
          { result := Except.error e, searchCalls := [sc], nextSearchIdx := idx + 1 }
      | Except.ok images =>
          let tail := processCalls resolvedImageQuery upstream rest (idx + 1)
          { result :=
              match tail.result with
              | Except.error e => Except.error e
              | Except.ok outs =>
                  Except.ok ({ tool_call_id := call.call_id, results := images } :: outs)
          , searchCalls := sc :: tail.searchCalls
          , nextSearchIdx := tail.nextSearchIdx }
    else
      processCalls resolvedImageQuery upstream rest idx

/-- Terminal outcome of the handler: the JSON body on success
(`content = response.output_text || ""`) or the catch branch's error message. -/
inductive SessionResult where
  | completed (content : String) : SessionResult
  | failed (msg : String) : SessionResult

/-- Observable trace of one session: the `tools` array passed at each
model-service call (one entry per call, in order), every image-search call
issued, and each completed round's invocations and resubmitted outputs. -/
structure SessionTrace where
  modelTools : List (List ToolDescriptor)
  searchCalls : List SearchCall
  rounds : List (List ToolCall × List ToolOutput)

/-- The `while (toolCalls.length && safetyCounter < 3)` loop (server.js lines
175-204). `fuel = 3 - safetyCounter` (initially 3); `callIdx` indexes the
model-response oracle; `searchIdx` indexes the upstream oracle. After the
loop, `lessonText = response.output_text || ""`. -/
def genLoop (tools : List ToolDescriptor) (resolvedImageQuery : String)
    (responses : Nat → Except String ModelResponse) (upstream : Nat → UpstreamResponse) :
    Nat → ModelResponse → Nat → Nat → SessionTrace → SessionResult × SessionTrace
  | fuel, response, callIdx, searchIdx, st =>
    let toolCalls := collectToolCalls response
    if toolCalls.isEmpty then
      (SessionResult.completed (response.output_text.getD ""), st)
    else
      match fuel with
      | 0 => (SessionResult.completed (response.output_text.getD ""), st)
      | fuel' + 1 =>
        let round := processCalls resolvedImageQuery upstream toolCalls searchIdx
        match round.result with
        | Except.error e =>
            (SessionResult.failed e,
             { st with searchCalls := st.searchCalls ++ round.searchCalls })
        | Except.ok outs =>
            let st' : SessionTrace :=
              { modelTools := st.modelTools ++ [tools]
              , searchCalls := st.searchCalls ++ round.searchCalls
              , rounds := st.rounds ++ [(toolCalls, outs)] }
            match responses callIdx with
            | Except.error e => (SessionResult.failed e, st')
            | Except.ok response' =>
                genLoop tools resolvedImageQuery responses upstream
                  fuel' response' (callIdx + 1) round.nextSearchIdx st'

/-- The whole generation session (server.js lines 146-214): build the tools,
issue the first model call, run the bounded tool loop. `responses n` is the
outcome of the `(n+1)`-th `openaiClient.responses.create` call (an `error`
models a thrown transport/service error); `upstream i` is the HTTP exchange
of the `(i+1)`-th image search. -/
def runSession (includeWebSearch : Option String) (resolvedImageQuery : String)
    (responses : Nat → Except String ModelResponse) (upstream : Nat → UpstreamResponse) :
    SessionResult × SessionTrace :=
  let tools := makeTools includeWebSearch
  let st0 : SessionTrace := { modelTools := [tools], searchCalls := [], rounds := [] }
  match responses 0 with
  | Except.error e => (SessionResult.failed e, st0)
  | Except.ok response =>
      genLoop tools resolvedImageQuery responses upstream 3 response 1 0 st0

/-- Number of model-service calls a session issued. -/
def SessionTrace.modelCalls (st : SessionTrace) : Nat :=
  st.modelTools.length

/-! ## Lesson store (server.js lines 13 and 68-114) -/

/-- A stored lesson record (server.js lines 73-82). `resources` entries are
opaque JSON values here. -/
structure Lesson where
  id : String
  title : String
  gradeLevel : String
  duration : String
  objectives : String
  content : String
  resources : List Json
  updatedAt : String

/-- The `lessons` Map, as an insertion-ordered association list with unique
keys (the semantics of a JavaScript `Map`). -/
abbrev LessonStore := List (String × Lesson)

/-- `lessons.get(k)`. -/
def mapGet (m : LessonStore) (k : String) : Option Lesson :=
  (m.find? (fun e => e.1 = k)).map (fun e => e.2)

/-- `lessons.has(k)`. -/
def mapHas (m : LessonStore) (k : String) : Bool :=
  m.any (fun e => e.1 = k)

/-- `lessons.set(k, v)`: replace in place when the key exists (a JS `Map`
keeps the original insertion position), append otherwise. -/
def mapSet (m : LessonStore) (k : String) (v : Lesson) : LessonStore :=
  if mapHas m k then m.map (fun e => if e.1 = k then (k, v) else e)
  else m ++ [(k, v)]

/-- `lessons.delete(k)`. -/
def mapDelete (m : LessonStore) (k : String) : LessonStore :=
  m.filter (fun e => e.1 ≠ k)

/-- The body of a PUT `/api/lessons/:id` request: each field may be absent
(or null), in which case `??` keeps the stored value. -/
structure LessonUpdate where
  title : Option String
  gradeLevel : Option String
  duration : Option String
  objectives : Option String
  content : Option String
  resources : Option (List Json)

/-- `app.put("/api/lessons/:id")` (server.js lines 87-105). `now` models
`new Date().toISOString()`. Returns the HTTP outcome and the store after the
request. -/
def putLesson (store : LessonStore) (id : String) (body : LessonUpdate) (now : String) :
    Except String Lesson × LessonStore :=
  match mapGet store id with
  | none => (Except.error "Lesson not found", store)
  | some lesson =>
      let updated : Lesson :=
        { lesson with
          title := body.title.getD lesson.title
          gradeLevel := body.gradeLevel.getD lesson.gradeLevel
          duration := body.duration.getD lesson.duration
          objectives := body.objectives.getD lesson.objectives
          content := body.content.getD lesson.content
          resources := body.resources.getD lesson.resources
          updatedAt := now }
      (Except.ok updated, mapSet store updated.id updated)

/-- `app.delete("/api/lessons/:id")` (server.js lines 107-114). -/
def deleteLesson (store : LessonStore) (id : String) :
    Except String Unit × LessonStore :=
  if mapHas store id then (Except.ok (), mapDelete store id)
  else (Except.error "Lesson not found", store)

/-! ## Concrete scenario data

Fixed model responses, upstream exchanges, files and store contents used to
evaluate the definitions on closed inputs. -/

/-- A well-formed `image_search` invocation with arguments
`{query: "leaf cells", count: 2}`. -/
def leafCellsCall : ToolCall :=
  { type := "function_call", name := "image_search", call_id := "call_1"
  , arguments := ToolArguments.valuePayload
      (some (Json.obj [("query", Json.str "leaf cells"), ("count", Json.num 2)])) }

/-- An invocation naming a capability the dispatch loop does not recognize. -/
def unknownCall : ToolCall :=
  { type := "tool_call", name := "web_search", call_id := "call_u"
  , arguments := ToolArguments.valuePayload none }

/-- An `image_search` invocation whose argument payload is a string that fails
to parse as JSON. -/
def badArgsCall : ToolCall :=
  { type := "function_call", name := "image_search", call_id := "call_b"
  , arguments := ToolArguments.stringPayload none }

/-- Round-0 model response carrying a single well-formed invocation. -/
def c8response0 : ModelResponse :=
  { id := "r0", output := [leafCellsCall], output_text := none }

/-- Round-1 model response with no invocations and the final text. -/
def c8response1 : ModelResponse :=
  { id := "r1", output := [], output_text := some "final lesson" }

/-- Model oracle: one invocation on round 0, none afterwards. -/
def c8responses : Nat → Except String ModelResponse :=
  fun n => if n = 0 then Except.ok c8response0 else Except.ok c8response1

/-- Model oracle whose first response already carries no invocations. -/
def c8bresponses : Nat → Except String ModelResponse :=
  fun _ => Except.ok { id := "r", output := [], output_text := some "direct answer" }

/-- A healthy upstream: every image search succeeds with one usable page. -/
def c8upstream : Nat → UpstreamResponse :=
  fun _ => { ok := true, pages := [{ title := "Leaf", imageinfo := [{ url := "https://img" }] }] }

/-- Round-0 response mixing an unrecognized and a recognized invocation. -/
def c2response0 : ModelResponse :=
  { id := "r0", output := [unknownCall, leafCellsCall], output_text := none }

/-- Model oracle for the mixed-invocation round. -/
def c2responses : Nat → Except String ModelResponse :=
  fun n => if n = 0 then Except.ok c2response0 else Except.ok c8response1

/-- The round the mixed-invocation session records: both invocations went in,
only the recognized one produced an output. -/
def c2round : List ToolCall × List ToolOutput :=
  ( [unknownCall, leafCellsCall]
  , [ { tool_call_id := "call_1"
      , results := [ { title := "Leaf", url := some "https://img"
                     , pageUrl := "https://commons.wikimedia.org/wiki/Leaf" } ] } ] )

/-- Model oracle that requests a capability on every round. -/
def loopingResponses : Nat → Except String ModelResponse :=
  fun n => Except.ok { id := "r", output := [leafCellsCall]
                     , output_text := if n = 3 then some "truncated text" else none }

/-- The response the looping model oracle returns on its fourth call. -/
def loopingFinalResponse : ModelResponse :=
  { id := "r", output := [leafCellsCall], output_text := some "truncated text" }

/-- An upstream that responds with a non-success status. -/
def failingUpstream : Nat → UpstreamResponse :=
  fun _ => { ok := false, pages := [] }

/-- Upstream exchange with one usable and one asset-less page. -/
def c9resp : UpstreamResponse :=
  { ok := true
  , pages := [ { title := "Leaf", imageinfo := [{ url := "https://img" }] }
             , { title := "Bare", imageinfo := [] } ] }

/-- A request with every field supplied. -/
def wreq : GenerationRequest :=
  { topic := some "Photosynthesis", gradeLevel := some "5", duration := some "45"
  , objectives := some "obj", includeWebSearch := some "false"
  , imageSearchQuery := none, youtubeUrl := none }

/-- A 10000-character uploaded file. -/
def bigFile : UploadFile :=
  { originalname := "big.txt", buffer := String.mk (List.replicate 10000 'a') }

/-- A stored lesson keyed under its own id, as POST creates them. -/
def wlessonA : Lesson :=
  { id := "a", title := "Plants", gradeLevel := "5", duration := "45"
  , objectives := "obj", content := "body", resources := [], updatedAt := "T0" }

/-- A second stored lesson, used to observe the frame condition. -/
def wlessonB : Lesson :=
  { id := "b", title := "Rocks", gradeLevel := "6", duration := "30"
  , objectives := "obj2", content := "body2", resources := [], updatedAt := "T0" }

/-- A store holding the two lessons. -/
def wstore : LessonStore := [("a", wlessonA), ("b", wlessonB)]

/-- A PUT body supplying only a new title. -/
def wbody : LessonUpdate :=
  { title := some "New title", gradeLevel := none, duration := none
  , objectives := none, content := none, resources := none }


theorem processCalls_skip (q : String) (upstream : Nat → UpstreamResponse)
    (call : ToolCall) (rest : List ToolCall) (idx : Nat)
    (h : call.name ≠ "image_search") :
    processCalls q upstream (call :: rest) idx = processCalls q upstream rest idx := by
  rw [processCalls.eq_def]
  simp [h]

theorem processCalls_ok_ids (q : String) (upstream : Nat → UpstreamResponse) :
    ∀ (calls : List ToolCall) (idx : Nat) (outs : List ToolOutput),
      (processCalls q upstream calls idx).result = Except.ok outs →
      outs.map ToolOutput.tool_call_id
        = (calls.filter (fun c => c.name = "image_search")).map ToolCall.call_id := by
  intro calls
  induction calls with
  | nil =>
      intro idx outs h
      rw [processCalls.eq_def] at h
      simp at h
      simp [h]
  | cons call rest ih =>
      intro idx outs h
      by_cases hname : call.name = "image_search"
      · rw [processCalls.eq_def] at h
        simp only [hname, if_pos rfl] at h
        rcases hup : performImageSearch (jsonGet (resolveToolArgs q call.arguments) "query")
            (jsonGet (resolveToolArgs q call.arguments) "count") (upstream idx) with e | images
        · rw [hup] at h
          simp at h
        · rw [hup] at h
          simp only at h
          rcases htail : (processCalls q upstream rest (idx + 1)).result with e' | outs'
          · rw [htail] at h
            simp at h
          · rw [htail] at h
            simp at h
            subst h
            simp [hname, ih (idx + 1) outs' htail]
      · rw [processCalls_skip q upstream call rest idx hname] at h
        simp [hname, ih idx outs h]

theorem processCalls_ok_of_upstream (q : String) (upstream : Nat → UpstreamResponse)
    (hup : ∀ i, (upstream i).ok = true) :
    ∀ (calls : List ToolCall) (idx : Nat),
      ∃ outs, (processCalls q upstream calls idx).result = Except.ok outs := by
  intro calls
  induction calls with
  | nil =>
      intro idx
      exact ⟨[], by rw [processCalls.eq_def]⟩
  | cons call rest ih =>
      intro idx
      by_cases hname : call.name = "image_search"
      · obtain ⟨outs, houts⟩ := ih (idx + 1)
        rw [processCalls.eq_def]
        simp only [hname, if_pos rfl]
        rw [performImageSearch, if_pos (hup idx)]
        simp only [houts]
        exact ⟨_, rfl⟩
      · obtain ⟨outs, houts⟩ := ih idx
        exact ⟨outs, by rw [processCalls_skip q upstream call rest idx hname]; exact houts⟩

theorem genLoop_done_empty {tools : List ToolDescriptor} {q : String}
    {responses : Nat → Except String ModelResponse} {upstream : Nat → UpstreamResponse}
    {fuel : Nat} {response : ModelResponse} {callIdx searchIdx : Nat} {st : SessionTrace}
    (h : collectToolCalls response = []) :
    genLoop tools q responses upstream fuel response callIdx searchIdx st
      = (SessionResult.completed (response.output_text.getD ""), st) := by
  rw [genLoop.eq_def]
  simp [h]

theorem genLoop_done_fuel {tools : List ToolDescriptor} {q : String}
    {responses : Nat → Except String ModelResponse} {upstream : Nat → UpstreamResponse}
    {response : ModelResponse} {callIdx searchIdx : Nat} {st : SessionTrace} :
    genLoop tools q responses upstream 0 response callIdx searchIdx st
      = (SessionResult.completed (response.output_text.getD ""), st) := by
  rw [genLoop.eq_def]
  by_cases h : (collectToolCalls response).isEmpty <;> simp [h]

theorem genLoop_step (fuel : Nat) {tools : List ToolDescriptor} {q : String}
    {responses : Nat → Except String ModelResponse} {upstream : Nat → UpstreamResponse}
    {response response' : ModelResponse} {callIdx searchIdx : Nat}
    {st : SessionTrace} {outs : List ToolOutput}
    (hne : collectToolCalls response ≠ [])
    (hok : (processCalls q upstream (collectToolCalls response) searchIdx).result = Except.ok outs)
    (hresp : responses callIdx = Except.ok response') :
    genLoop tools q responses upstream (fuel + 1) response callIdx searchIdx st
      = genLoop tools q responses upstream fuel response' (callIdx + 1)
          (processCalls q upstream (collectToolCalls response) searchIdx).nextSearchIdx
          { modelTools := st.modelTools ++ [tools]
          , searchCalls := st.searchCalls
              ++ (processCalls q upstream (collectToolCalls response) searchIdx).searchCalls
          , rounds := st.rounds ++ [(collectToolCalls response, outs)] } := by
  rw [genLoop.eq_def]
  simp [List.isEmpty_iff, hne, hok, hresp]

theorem genLoop_fail_round (fuel : Nat) {tools : List ToolDescriptor} {q : String}
    {responses : Nat → Except String ModelResponse} {upstream : Nat → UpstreamResponse}
    {response : ModelResponse} {callIdx searchIdx : Nat}
    {st : SessionTrace} {e : String}
    (hne : collectToolCalls response ≠ [])
    (herr : (processCalls q upstream (collectToolCalls response) searchIdx).result = Except.error e) :
    genLoop tools q responses upstream (fuel + 1) response callIdx searchIdx st
      = (SessionResult.failed e,
         { st with searchCalls := st.searchCalls
              ++ (processCalls q upstream (collectToolCalls response) searchIdx).searchCalls }) := by
  rw [genLoop.eq_def]
  simp [List.isEmpty_iff, hne, herr]

theorem genLoop_fail_model (fuel : Nat) {tools : List ToolDescriptor} {q : String}
    {responses : Nat → Except String ModelResponse} {upstream : Nat → UpstreamResponse}
    {response : ModelResponse} {callIdx searchIdx : Nat}
    {st : SessionTrace} {outs : List ToolOutput} {e : String}
    (hne : collectToolCalls response ≠ [])
    (hok : (processCalls q upstream (collectToolCalls response) searchIdx).result = Except.ok outs)
    (hresp : responses callIdx = Except.error e) :
    genLoop tools q responses upstream (fuel + 1) response callIdx searchIdx st
      = (SessionResult.failed e,
          { modelTools := st.modelTools ++ [tools]
          , searchCalls := st.searchCalls
              ++ (processCalls q upstream (collectToolCalls response) searchIdx).searchCalls
          , rounds := st.rounds ++ [(collectToolCalls response, outs)] }) := by
  rw [genLoop.eq_def]
  simp [List.isEmpty_iff, hne, hok, hresp]

theorem genLoop_trace_le (tools : List ToolDescriptor) (q : String)
    (responses : Nat → Except String ModelResponse) (upstream : Nat → UpstreamResponse) :
    ∀ (fuel : Nat) (response : ModelResponse) (callIdx searchIdx : Nat) (st : SessionTrace),
      ((genLoop tools q responses upstream fuel response callIdx searchIdx st).2).modelTools.length
          ≤ st.modelTools.length + fuel
      ∧ ((genLoop tools q responses upstream fuel response callIdx searchIdx st).2).rounds.length
          ≤ st.rounds.length + fuel := by
  intro fuel
  induction fuel with
  | zero =>
      intro response callIdx searchIdx st
      rw [genLoop.eq_def]
      by_cases h : (collectToolCalls response).isEmpty <;> simp [h]
  | succ n ih =>
      intro response callIdx searchIdx st
      rw [genLoop.eq_def]
      by_cases h : (collectToolCalls response).isEmpty
      · simp [h]
      · simp only [h, Bool.false_eq_true, if_false]
        rcases hres : (processCalls q upstream (collectToolCalls response) searchIdx).result
            with e | outs
        · simp
        · rcases hresp : responses callIdx with e | response'
          · simp
          · have := ih response' (callIdx + 1)
              (processCalls q upstream (collectToolCalls response) searchIdx).nextSearchIdx
              { modelTools := st.modelTools ++ [tools]
              , searchCalls := st.searchCalls
                  ++ (processCalls q upstream (collectToolCalls response) searchIdx).searchCalls
              , rounds := st.rounds ++ [(collectToolCalls response, outs)] }
            simp at this
            simp
            omega


theorem genLoop_modelTools_shape (tools : List ToolDescriptor) (q : String)
    (responses : Nat → Except String ModelResponse) (upstream : Nat → UpstreamResponse) :
    ∀ (fuel : Nat) (response : ModelResponse) (callIdx searchIdx : Nat) (st : SessionTrace),
      ∃ k, k ≤ fuel ∧
        ((genLoop tools q responses upstream fuel response callIdx searchIdx st).2).modelTools
          = st.modelTools ++ List.replicate k tools := by
  intro fuel
  induction fuel with
  | zero =>
      intro response callIdx searchIdx st
      refine ⟨0, le_refl 0, ?_⟩
      rw [genLoop.eq_def]
      by_cases h : (collectToolCalls response).isEmpty <;> simp [h]
  | succ n ih =>
      intro response callIdx searchIdx st
      rw [genLoop.eq_def]
      by_cases h : (collectToolCalls response).isEmpty
      · exact ⟨0, Nat.zero_le _, by simp [h]⟩
      · simp only [h, Bool.false_eq_true, if_false]
        rcases hres : (processCalls q upstream (collectToolCalls response) searchIdx).result
            with e | outs
        · exact ⟨0, Nat.zero_le _, by simp⟩
        · rcases hresp : responses callIdx with e | response'
          · refine ⟨1, by omega, ?_⟩
            simp [List.replicate]
          · obtain ⟨k, hk, hshape⟩ := ih response' (callIdx + 1)
              (processCalls q upstream (collectToolCalls response) searchIdx).nextSearchIdx
              { modelTools := st.modelTools ++ [tools]
              , searchCalls := st.searchCalls
                  ++ (processCalls q upstream (collectToolCalls response) searchIdx).searchCalls
              , rounds := st.rounds ++ [(collectToolCalls response, outs)] }
            refine ⟨k + 1, by omega, ?_⟩
            simp only at hshape
            rw [hshape]
            simp [List.replicate_succ]

theorem genLoop_rounds_good (tools : List ToolDescriptor) (q : String)
    (responses : Nat → Except String ModelResponse) (upstream : Nat → UpstreamResponse) :
    ∀ (fuel : Nat) (response : ModelResponse) (callIdx searchIdx : Nat) (st : SessionTrace),
      (∀ rd ∈ st.rounds,
        rd.2.map ToolOutput.tool_call_id
          = (rd.1.filter (fun c => c.name = "image_search")).map ToolCall.call_id) →
      ∀ rd ∈ ((genLoop tools q responses upstream fuel response callIdx searchIdx st).2).rounds,
        rd.2.map ToolOutput.tool_call_id
          = (rd.1.filter (fun c => c.name = "image_search")).map ToolCall.call_id := by
  intro fuel
  induction fuel with
  | zero =>
      intro response callIdx searchIdx st hst
      rw [genLoop.eq_def]
      by_cases h : (collectToolCalls response).isEmpty <;> simpa [h] using hst
  | succ n ih =>
      intro response callIdx searchIdx st hst
      rw [genLoop.eq_def]
      by_cases h : (collectToolCalls response).isEmpty
      · simpa [h] using hst
      · simp only [h, Bool.false_eq_true, if_false]
        rcases hres : (processCalls q upstream (collectToolCalls response) searchIdx).result
            with e | outs
        · simpa using hst
        · rcases hresp : responses callIdx with e | response'
          · simp only
            intro rd hrd
            rcases List.mem_append.mp hrd with hin | hnew
            · exact hst rd hin
            · rcases List.mem_singleton.mp hnew with rfl
              exact processCalls_ok_ids q upstream (collectToolCalls response) searchIdx outs hres
          · apply ih
            intro rd hrd
            rcases List.mem_append.mp hrd with hin | hnew
            · exact hst rd hin
            · rcases List.mem_singleton.mp hnew with rfl
              exact processCalls_ok_ids q upstream (collectToolCalls response) searchIdx outs hres


theorem intercalate_go_append (l : List String) :
    ∀ (a b s : String), String.intercalate.go (a ++ b) s l = a ++ String.intercalate.go b s l := by
  induction l with
  | nil => intro a b s; rfl
  | cons c cs ih =>
      intro a b s
      show String.intercalate.go ((a ++ b) ++ s ++ c) s cs
        = a ++ String.intercalate.go (b ++ s ++ c) s cs
      simp only [String.append_assoc]
      exact ih a (b ++ (s ++ c)) s

theorem intercalate_go_cons (rest : List String) (acc s y : String) :
    String.intercalate.go acc s (y :: rest) = (acc ++ s) ++ String.intercalate.go y s rest := by
  show String.intercalate.go (acc ++ s ++ y) s rest = (acc ++ s) ++ String.intercalate.go y s rest
  exact intercalate_go_append rest (acc ++ s) y s

theorem intercalate_cons_cons (s x y : String) (rest : List String) :
    String.intercalate s (x :: y :: rest) = x ++ s ++ String.intercalate s (y :: rest) := by
  show String.intercalate.go x s (y :: rest) = x ++ s ++ String.intercalate.go y s rest
  exact intercalate_go_cons rest x s y

/-- C6: for a non-empty ordered sequence of uploaded files the digest is the
blank-line-separated concatenation, in input order, of `File: <name>` blocks
followed by the file text truncated to at most 4000 characters (a
10000-character file contributes exactly 4000 characters); the empty sequence
yields the fixed placeholder string. -/
theorem upload_digest_spec :
    contextFromFiles [] = "No uploaded files provided."
    ∧ (∀ f : UploadFile,
        contextFromFiles [f] = "File: " ++ f.originalname ++ "\n" ++ rawTextOf f)
    ∧ (∀ (f g : UploadFile) (rest : List UploadFile),
        contextFromFiles (f :: g :: rest)
          = ("File: " ++ f.originalname ++ "\n" ++ rawTextOf f) ++ "\n\n"
            ++ contextFromFiles (g :: rest))
    ∧ (∀ f : UploadFile, (rawTextOf f).length ≤ 4000)
    ∧ (∀ f : UploadFile, f.buffer.length = 10000 → (rawTextOf f).length = 4000) := by
  refine ⟨rfl, fun f => rfl, ?_, ?_, ?_⟩
  · intro f g rest
    show summarizeUploads (f :: g :: rest) = _ ++ "\n\n" ++ summarizeUploads (g :: rest)
    unfold summarizeUploads
    rw [List.map_cons, List.map_cons, intercalate_cons_cons]
  · intro f
    show (f.buffer.data.take 4000).length ≤ 4000
    rw [List.length_take]
    exact min_le_left 4000 f.buffer.data.length
  · intro f h
    show (f.buffer.data.take 4000).length = 4000
    have hb : f.buffer.data.length = 10000 := h
    rw [List.length_take, hb]
    omega

theorem upload_digest_spec_witness :
    bigFile.buffer.length = 10000 ∧ (rawTextOf bigFile).length = 4000 := by
  have hb : bigFile.buffer.length = 10000 := by
    exact List.length_replicate 10000 'a'
  exact ⟨hb, upload_digest_spec.2.2.2.2 bigFile hb⟩


/-- C7: prompt building is a deterministic pure function of the request, the
upload digest and the resolved image query; the resolved image query defaults
to the topic-derived template whenever the caller supplies no image query or
one that trims to the empty string. -/
theorem prompt_builder_spec (r₁ r₂ : GenerationRequest) (d₁ d₂ q₁ q₂ : String)
    (hr : r₁ = r₂) (hd : d₁ = d₂) (hq : q₁ = q₂) :
    systemPrompt = systemPrompt
    ∧ userPrompt r₁ d₁ q₁ = userPrompt r₂ d₂ q₂
    ∧ (∀ (isq topic : Option String),
        (isq = none ∨ ∃ s, isq = some s ∧ s.trim = "") →
        resolveImageQuery isq topic = defaultImageQuery topic) := by
  subst hr hd hq
  refine ⟨rfl, rfl, ?_⟩
  rintro isq topic (rfl | ⟨s, rfl, hs⟩)
  · rfl
  · simp [resolveImageQuery, hs]

theorem prompt_builder_spec_witness :
    userPrompt wreq "digest" "query" = userPrompt wreq "digest" "query"
    ∧ resolveImageQuery none (some "Photosynthesis")
        = "Photosynthesis classroom illustration" := by
  have h := prompt_builder_spec wreq wreq "digest" "digest" "query" "query" rfl rfl rfl
  refine ⟨h.2.1, ?_⟩
  rw [h.2.2 none (some "Photosynthesis") (Or.inl rfl)]
  rfl

/-- C9: on a successful upstream response every produced `ImageResult` is
fully populated: entries lacking an image asset are filtered out before the
mapping, one result is produced per surviving page, and the first
image-info access of each surviving page yields a defined URL. -/
theorem image_results_wellformed (query count : Option Json) (resp : UpstreamResponse)
    (hok : resp.ok = true) :
    ∃ rs, performImageSearch query count resp = Except.ok rs
      ∧ rs.length = (resp.pages.filter (fun p => !p.imageinfo.isEmpty)).length
      ∧ ∀ r ∈ rs, ∃ u, r.url = some u := by
  refine ⟨_, by rw [performImageSearch, if_pos hok], by simp, ?_⟩
  intro r hr
  rcases List.mem_map.mp hr with ⟨p, hp, rfl⟩
  have hne : ¬p.imageinfo.isEmpty := by simpa using (List.mem_filter.mp hp).2
  rcases hi : p.imageinfo with _ | ⟨i, is⟩
  · rw [hi] at hne
    simp at hne
  · exact ⟨i.url, by simp [pageToResult, hi]⟩

theorem image_results_wellformed_witness :
    c9resp.ok = true
    ∧ ∃ rs, performImageSearch none none c9resp = Except.ok rs ∧ rs.length = 1 := by
  obtain ⟨rs, h1, h2, h3⟩ := image_results_wellformed none none c9resp rfl
  refine ⟨rfl, rs, h1, ?_⟩
  rw [h2]
  rfl

/-- C3: an `image_search` invocation whose argument payload is a string that
fails to parse as JSON does not abort the session: the fallback argument set
`{query: resolvedImageQuery}` is substituted, the search runs with the
resolved query and the defaulted count 4, and a `CapabilityResult` carrying
the invocation's id is produced. -/
theorem malformed_args_fallback (q : String) (upstream : Nat → UpstreamResponse)
    (call : ToolCall) (idx : Nat)
    (hname : call.name = "image_search")
    (hargs : call.arguments = ToolArguments.stringPayload none)
    (hok : (upstream idx).ok = true) :
    resolveToolArgs q (ToolArguments.stringPayload none) = Json.obj [("query", Json.str q)]
    ∧ (processCalls q upstream [call] idx).result
        = Except.ok
            [{ tool_call_id := call.call_id
             , results := ((upstream idx).pages.filter (fun p => !p.imageinfo.isEmpty)).map
                 pageToResult }]
    ∧ (processCalls q upstream [call] idx).searchCalls
        = [{ query := some (Json.str q), count := Json.num 4 }] := by
  have h1 : resolveToolArgs q (ToolArguments.stringPayload none)
      = Json.obj [("query", Json.str q)] := rfl
  have hargres : resolveToolArgs q call.arguments = Json.obj [("query", Json.str q)] := by
    rw [hargs]
    exact h1
  have hq : jsonGet (Json.obj [("query", Json.str q)]) "query" = some (Json.str q) := by
    simp [jsonGet]
  have hc : jsonGet (Json.obj [("query", Json.str q)]) "count" = none := by
    simp [jsonGet]
  have hperf : performImageSearch (some (Json.str q)) none (upstream idx)
      = Except.ok (((upstream idx).pages.filter (fun p => !p.imageinfo.isEmpty)).map
          pageToResult) := by
    rw [performImageSearch, if_pos hok]
  have hall : processCalls q upstream [call] idx
      = { result := Except.ok
            [{ tool_call_id := call.call_id
             , results := ((upstream idx).pages.filter (fun p => !p.imageinfo.isEmpty)).map
                 pageToResult }]
        , searchCalls := [{ query := some (Json.str q), count := Json.num 4 }]
        , nextSearchIdx := idx + 1 } := by
    rw [processCalls.eq_def]
    simp only [hname, if_pos rfl, if_true, hargres, hq, hc, hperf, effectiveCount, Option.getD]
    rw [processCalls.eq_def]
  exact ⟨h1, by rw [hall], by rw [hall]⟩

theorem malformed_args_fallback_witness :
    badArgsCall.name = "image_search"
    ∧ (processCalls "default query" c8upstream [badArgsCall] 0).searchCalls
        = [{ query := some (Json.str "default query"), count := Json.num 4 }]
    ∧ ∃ outs, (processCalls "default query" c8upstream [badArgsCall] 0).result
        = Except.ok outs := by
  have h := malformed_args_fallback "default query" c8upstream badArgsCall 0 rfl rfl rfl
  exact ⟨rfl, h.2.2, ⟨_, h.2.1⟩⟩


/-- C5: the capability descriptor list is the generic web-search descriptor
exactly when `includeWebSearch` is `"true"`, always followed by the
image-search descriptor with required `query` and `count` defaulting to 4;
every model-service call of a session is passed this same list. -/
theorem tool_registry_spec (includeWebSearch : Option String) (q : String)
    (responses : Nat → Except String ModelResponse) (upstream : Nat → UpstreamResponse) :
    (includeWebSearch = some "true" →
        makeTools includeWebSearch = [webSearchTool, imageSearchTool])
    ∧ (includeWebSearch ≠ some "true" → makeTools includeWebSearch = [imageSearchTool])
    ∧ imageSearchTool.required = ["query"]
    ∧ ((imageSearchTool.properties.find? (fun e => e.1 = "count")).map (fun e => e.2.default))
        = some (some (Json.num 4))
    ∧ ((imageSearchTool.properties.find? (fun e => e.1 = "query")).map (fun e => e.2.type))
        = some "string"
    ∧ ∀ t ∈ (runSession includeWebSearch q responses upstream).2.modelTools,
        t = makeTools includeWebSearch := by
  refine ⟨fun h => by simp [makeTools, h], fun h => by simp [makeTools, h], rfl, rfl, rfl, ?_⟩
  intro t ht
  rcases h0 : responses 0 with e | r
  · rw [runSession] at ht
    simp only [h0] at ht
    simp at ht
    exact ht
  · rw [runSession] at ht
    simp only [h0] at ht
    obtain ⟨k, hk, hshape⟩ := genLoop_modelTools_shape (makeTools includeWebSearch) q
      responses upstream 3 r 1 0
      { modelTools := [makeTools includeWebSearch], searchCalls := [], rounds := [] }
    rw [hshape] at ht
    rcases List.mem_append.mp ht with h | h
    · simpa using h
    · exact List.eq_of_mem_replicate h

theorem tool_registry_spec_witness :
    makeTools (some "true") = [webSearchTool, imageSearchTool]
    ∧ makeTools (some "false") = [imageSearchTool] := by
  have h1 := tool_registry_spec (some "true") "q" c8bresponses c8upstream
  have h2 := tool_registry_spec (some "false") "q" c8bresponses c8upstream
  exact ⟨h1.1 rfl, h2.2.1 (by simp)⟩

/-- C2: every completed round resubmits exactly one capability result per
recognized (`image_search`) invocation, carrying that invocation's id, in
order; unrecognized invocations contribute no result and do not block the
round. -/
theorem round_outputs_match_recognized (flag : Option String) (q : String)
    (responses : Nat → Except String ModelResponse) (upstream : Nat → UpstreamResponse)
    (rd : List ToolCall × List ToolOutput)
    (hrd : rd ∈ (runSession flag q responses upstream).2.rounds) :
    rd.2.map ToolOutput.tool_call_id
      = (rd.1.filter (fun c => c.name = "image_search")).map ToolCall.call_id
    ∧ rd.2.length = (rd.1.filter (fun c => c.name = "image_search")).length := by
  have hgood : rd.2.map ToolOutput.tool_call_id
      = (rd.1.filter (fun c => c.name = "image_search")).map ToolCall.call_id := by
    rcases h0 : responses 0 with e | r
    · rw [runSession] at hrd
      simp only [h0] at hrd
      simp at hrd
    · rw [runSession] at hrd
      simp only [h0] at hrd
      exact genLoop_rounds_good (makeTools flag) q responses upstream 3 r 1 0
        { modelTools := [makeTools flag], searchCalls := [], rounds := [] }
        (by intro rd2 h; simp at h) rd hrd
  refine ⟨hgood, ?_⟩
  have := congrArg List.length hgood
  simpa using this

theorem round_outputs_match_recognized_witness :
    (c2round.1.filter (fun c => c.name = "image_search")).length = 1
    ∧ c2round.2.map ToolOutput.tool_call_id = ["call_1"]
    ∧ c2round.2.length = 1 := by
  have hmem : c2round ∈ (runSession none "q" c2responses c8upstream).2.rounds := by
    have hr : (runSession none "q" c2responses c8upstream).2.rounds = [c2round] := rfl
    rw [hr]
    exact List.mem_singleton.mpr rfl
  have h := round_outputs_match_recognized none "q" c2responses c8upstream c2round hmem
  refine ⟨rfl, ?_, ?_⟩
  · rw [h.1]
    rfl
  · rw [h.2]
    rfl


/-- C8: if the model returns one well-formed `image_search` invocation
(`{query: "leaf cells", count: 2}`) on round 0 and none on round 1, the
session performs exactly one image search with those arguments passed through
unchanged and completes after exactly two model calls; if the first response
carries no invocations, the session completes after one model call with zero
capability results and zero rounds. -/
theorem scenario_single_invocation_then_none :
    (runSession none "leaf topic" c8responses c8upstream).1
        = SessionResult.completed "final lesson"
    ∧ (runSession none "leaf topic" c8responses c8upstream).2.modelCalls = 2
    ∧ (runSession none "leaf topic" c8responses c8upstream).2.searchCalls
        = [{ query := some (Json.str "leaf cells"), count := Json.num 2 }]
    ∧ (runSession none "leaf topic" c8bresponses c8upstream).1
        = SessionResult.completed "direct answer"
    ∧ (runSession none "leaf topic" c8bresponses c8upstream).2.modelCalls = 1
    ∧ (runSession none "leaf topic" c8bresponses c8upstream).2.searchCalls = []
    ∧ (runSession none "leaf topic" c8bresponses c8upstream).2.rounds = [] :=
  ⟨rfl, rfl, rfl, rfl, rfl, rfl, rfl⟩

/-- C1: a session issues at most 4 model-service calls and runs at most 3
tool rounds, always ending Completed or Failed; when every response carries
an invocation and every search succeeds, the bound is hit: exactly 4 model
calls are made and the session completes anyway with the text of the last
response. -/
theorem session_terminates_within_bound (flag : Option String) (q : String)
    (responses : Nat → Except String ModelResponse) (upstream : Nat → UpstreamResponse) :
    (runSession flag q responses upstream).2.rounds.length ≤ 3
    ∧ (runSession flag q responses upstream).2.modelCalls ≤ 4
    ∧ ((∃ c, (runSession flag q responses upstream).1 = SessionResult.completed c)
        ∨ ∃ e, (runSession flag q responses upstream).1 = SessionResult.failed e)
    ∧ ((∀ n, n ≤ 3 → ∃ r, responses n = Except.ok r ∧ collectToolCalls r ≠ []) →
        (∀ i, (upstream i).ok = true) →
        ∃ r3, responses 3 = Except.ok r3
          ∧ (runSession flag q responses upstream).1
              = SessionResult.completed (r3.output_text.getD "")
          ∧ (runSession flag q responses upstream).2.modelCalls = 4) := by
  refine ⟨?_, ?_, ?_, ?_⟩
  · rcases h0 : responses 0 with e | r
    · simp [runSession, h0]
    · have h := (genLoop_trace_le (makeTools flag) q responses upstream 3 r 1 0
        { modelTools := [makeTools flag], searchCalls := [], rounds := [] }).2
      rw [runSession]
      simp only [h0]
      simpa using h
  · rcases h0 : responses 0 with e | r
    · simp [runSession, h0, SessionTrace.modelCalls]
    · have h := (genLoop_trace_le (makeTools flag) q responses upstream 3 r 1 0
        { modelTools := [makeTools flag], searchCalls := [], rounds := [] }).1
      rw [runSession, SessionTrace.modelCalls]
      simp only [h0]
      simpa using h
  · rcases hres : (runSession flag q responses upstream).1 with c | e
    · exact Or.inl ⟨c, rfl⟩
    · exact Or.inr ⟨e, rfl⟩
  · intro hresp hup
    obtain ⟨r0, h0, hc0⟩ := hresp 0 (by omega)
    obtain ⟨r1, h1, hc1⟩ := hresp 1 (by omega)
    obtain ⟨r2, h2, hc2⟩ := hresp 2 (by omega)
    obtain ⟨r3, h3, hc3⟩ := hresp 3 (by omega)
    obtain ⟨outs0, ho0⟩ := processCalls_ok_of_upstream q upstream hup (collectToolCalls r0) 0
    obtain ⟨outs1, ho1⟩ := processCalls_ok_of_upstream q upstream hup (collectToolCalls r1) _
    obtain ⟨outs2, ho2⟩ := processCalls_ok_of_upstream q upstream hup (collectToolCalls r2) _
    have hrun : runSession flag q responses upstream
        = genLoop (makeTools flag) q responses upstream 3 r0 1 0
            { modelTools := [makeTools flag], searchCalls := [], rounds := [] } := by
      rw [runSession]
      simp only [h0]
    rw [hrun, genLoop_step 2 hc0 ho0 h1, genLoop_step 1 hc1 ho1 h2,
      genLoop_step 0 hc2 ho2 h3, genLoop_done_fuel]
    exact ⟨r3, h3, rfl, by simp [SessionTrace.modelCalls]⟩


theorem session_terminates_within_bound_witness :
    (runSession none "q" loopingResponses c8upstream).2.modelCalls = 4
    ∧ (runSession none "q" loopingResponses c8upstream).1
        = SessionResult.completed "truncated text" := by
  have h := session_terminates_within_bound none "q" loopingResponses c8upstream
  have hall : ∀ n, n ≤ 3 → ∃ r, loopingResponses n = Except.ok r ∧ collectToolCalls r ≠ [] := by
    intro n hn
    exact ⟨_, rfl, fun hcontra => List.cons_ne_nil _ _ hcontra⟩
  obtain ⟨r3, h3, hres, hcalls⟩ := h.2.2.2 hall (fun i => rfl)
  have hR : Except.ok loopingFinalResponse = Except.ok r3 :=
    (rfl : loopingResponses 3 = Except.ok loopingFinalResponse).symm.trans h3
  have hinj := Except.ok.inj hR
  rw [← hinj] at hres
  exact ⟨hcalls, hres⟩

/-- C4: the image-search operation throws exactly when the upstream responds
with a non-success status, with message "Image search failed."; that error
ends the whole session as Failed with that single message, after one model
call, one attempted search, no completed round and no retry. -/
theorem upstream_failure_fatal (query count : Option Json) (resp : UpstreamResponse)
    (flag : Option String) (q : String)
    (responses : Nat → Except String ModelResponse) (upstream : Nat → UpstreamResponse)
    (r : ModelResponse) (call : ToolCall)
    (hr : responses 0 = Except.ok r)
    (hc : collectToolCalls r = [call])
    (hname : call.name = "image_search")
    (hbad : (upstream 0).ok = false) :
    ((∃ e, performImageSearch query count resp = Except.error e) ↔ resp.ok = false)
    ∧ (resp.ok = false →
        performImageSearch query count resp = Except.error "Image search failed.")
    ∧ (runSession flag q responses upstream).1 = SessionResult.failed "Image search failed."
    ∧ (runSession flag q responses upstream).2.modelCalls = 1
    ∧ (runSession flag q responses upstream).2.searchCalls.length = 1
    ∧ (runSession flag q responses upstream).2.rounds = [] := by
  have hiff : (∃ e, performImageSearch query count resp = Except.error e)
      ↔ resp.ok = false := by
    rw [performImageSearch]
    rcases hok : resp.ok <;> simp
  have herr2 : resp.ok = false →
      performImageSearch query count resp = Except.error "Image search failed." := by
    intro h
    rw [performImageSearch, if_neg (by simp [h])]
  have herr : (processCalls q upstream (collectToolCalls r) 0).result
        = Except.error "Image search failed."
      ∧ (processCalls q upstream (collectToolCalls r) 0).searchCalls.length = 1 := by
    have hpf : performImageSearch (jsonGet (resolveToolArgs q call.arguments) "query")
        (jsonGet (resolveToolArgs q call.arguments) "count") (upstream 0)
        = Except.error "Image search failed." := by
      rw [performImageSearch, if_neg (by simp [hbad])]
    rw [hc]
    rw [processCalls.eq_def]
    simp only [hname, if_pos rfl, if_true, hpf]
    simp
  have hne : collectToolCalls r ≠ [] := by
    rw [hc]
    exact fun h => List.cons_ne_nil _ _ h
  have hrun : runSession flag q responses upstream
      = genLoop (makeTools flag) q responses upstream 3 r 1 0
          { modelTools := [makeTools flag], searchCalls := [], rounds := [] } := by
    rw [runSession]
    simp only [hr]
  rw [hrun, genLoop_fail_round 2 hne herr.1]
  refine ⟨hiff, herr2, rfl, rfl, ?_, rfl⟩
  simpa using herr.2

theorem upstream_failure_fatal_witness :
    (runSession none "q" c8responses failingUpstream).1
        = SessionResult.failed "Image search failed."
    ∧ (runSession none "q" c8responses failingUpstream).2.modelCalls = 1 := by
  have h := upstream_failure_fatal none none { ok := false, pages := [] }
    none "q" c8responses failingUpstream c8response0 leafCellsCall rfl rfl rfl rfl
  exact ⟨h.2.2.1, h.2.2.2.1⟩


theorem mapHas_of_get (m : LessonStore) (k : String) (l : Lesson)
    (h : mapGet m k = some l) : mapHas m k = true := by
  unfold mapGet at h
  rcases he : m.find? (fun e => e.1 = k) with _ | e
  · rw [he] at h
    simp at h
  · unfold mapHas
    rw [List.any_eq_true]
    refine ⟨e, List.mem_of_find?_eq_some he, ?_⟩
    simpa using List.find?_some he

theorem mapHas_false_of_get_none (m : LessonStore) (k : String)
    (h : mapGet m k = none) : mapHas m k = false := by
  unfold mapGet at h
  rw [Option.map_eq_none'] at h
  rw [List.find?_eq_none] at h
  unfold mapHas
  rw [Bool.eq_false_iff]
  intro hc
  rw [List.any_eq_true] at hc
  obtain ⟨e, he, hp⟩ := hc
  exact absurd hp (h e he)

theorem find?_map_replace (m : LessonStore) (k k' : String) (v : Lesson) (hne : k' ≠ k) :
    (m.map (fun e => if e.1 = k then (k, v) else e)).find? (fun e => e.1 = k')
      = m.find? (fun e => e.1 = k') := by
  induction m with
  | nil => rfl
  | cons hd tl ih =>
      rw [List.map_cons]
      by_cases h : hd.1 = k
      · rw [if_pos h]
        rw [List.find?_cons_of_neg, List.find?_cons_of_neg]
        · exact ih
        · simp only [decide_eq_true_eq]
          exact fun hh => hne (by rw [← hh, h])
        · simp only [decide_eq_true_eq]
          exact fun hh => hne hh.symm
      · rw [if_neg h]
        by_cases h2 : hd.1 = k'
        · rw [List.find?_cons_of_pos, List.find?_cons_of_pos] <;> simp [h2]
        · rw [List.find?_cons_of_neg, List.find?_cons_of_neg]
          · exact ih
          · simp [h2]
          · simp [h2]

theorem find?_append_singleton (m : LessonStore) (k k' : String) (v : Lesson) (hne : k' ≠ k) :
    (m ++ [(k, v)]).find? (fun e => e.1 = k') = m.find? (fun e => e.1 = k') := by
  induction m with
  | nil =>
      simp only [List.nil_append]
      rw [List.find?_cons_of_neg]
      simp only [decide_eq_true_eq]
      exact fun hh => hne hh.symm
  | cons hd tl ih =>
      rw [List.cons_append]
      by_cases h2 : hd.1 = k'
      · rw [List.find?_cons_of_pos, List.find?_cons_of_pos] <;> simp [h2]
      · rw [List.find?_cons_of_neg, List.find?_cons_of_neg]
        · exact ih
        · simp [h2]
        · simp [h2]

theorem mapGet_mapSet_other (m : LessonStore) (k k' : String) (v : Lesson) (hne : k' ≠ k) :
    mapGet (mapSet m k v) k' = mapGet m k' := by
  unfold mapSet
  by_cases h : mapHas m k
  · rw [if_pos h]
    unfold mapGet
    rw [find?_map_replace m k k' v hne]
  · rw [if_neg h]
    unfold mapGet
    rw [find?_append_singleton m k k' v hne]

theorem find?_map_replace_self (m : LessonStore) (k : String) (v : Lesson)
    (h : mapHas m k = true) :
    (m.map (fun e => if e.1 = k then (k, v) else e)).find? (fun e => e.1 = k)
      = some (k, v) := by
  induction m with
  | nil => simp [mapHas] at h
  | cons hd tl ih =>
      rw [List.map_cons]
      by_cases hh : hd.1 = k
      · rw [if_pos hh]
        rw [List.find?_cons_of_pos]
        simp
      · rw [if_neg hh]
        rw [List.find?_cons_of_neg]
        · exact ih (by simpa [mapHas, hh] using h)
        · simp [hh]

theorem mapGet_mapSet_self (m : LessonStore) (k : String) (v : Lesson)
    (h : mapHas m k = true) :
    mapGet (mapSet m k v) k = some v := by
  unfold mapSet
  rw [if_pos h]
  unfold mapGet
  rw [find?_map_replace_self m k v h]
  rfl


/-- C10: a PUT on an existing id keeps the record's id, sets `updatedAt` to
the current time, takes each non-nullishly supplied body field and keeps the
stored value for absent ones, and leaves every other record untouched; a PUT
or DELETE naming an unknown id answers "Lesson not found" and leaves the
store unchanged. -/
theorem lesson_put_delete_spec (store : LessonStore) (id : String) (body : LessonUpdate)
    (now : String) (l : Lesson)
    (hget : mapGet store id = some l) (hid : l.id = id) :
    (∃ u, (putLesson store id body now).1 = Except.ok u
       ∧ u.id = l.id
       ∧ u.updatedAt = now
       ∧ u.title = body.title.getD l.title
       ∧ u.gradeLevel = body.gradeLevel.getD l.gradeLevel
       ∧ u.duration = body.duration.getD l.duration
       ∧ u.objectives = body.objectives.getD l.objectives
       ∧ u.content = body.content.getD l.content
       ∧ u.resources = body.resources.getD l.resources
       ∧ mapGet (putLesson store id body now).2 id = some u
       ∧ (∀ k, k ≠ id → mapGet (putLesson store id body now).2 k = mapGet store k))
    ∧ (∀ (store2 : LessonStore) (id2 : String) (body2 : LessonUpdate) (now2 : String),
        mapGet store2 id2 = none →
        putLesson store2 id2 body2 now2 = (Except.error "Lesson not found", store2))
    ∧ (∀ (store2 : LessonStore) (id2 : String),
        mapGet store2 id2 = none →
        deleteLesson store2 id2 = (Except.error "Lesson not found", store2)) := by
  refine ⟨?_, ?_, ?_⟩
  · have hput : putLesson store id body now
        = (Except.ok
            { l with
              title := body.title.getD l.title
              gradeLevel := body.gradeLevel.getD l.gradeLevel
              duration := body.duration.getD l.duration
              objectives := body.objectives.getD l.objectives
              content := body.content.getD l.content
              resources := body.resources.getD l.resources
              updatedAt := now }
          , mapSet store l.id
              { l with
                title := body.title.getD l.title
                gradeLevel := body.gradeLevel.getD l.gradeLevel
                duration := body.duration.getD l.duration
                objectives := body.objectives.getD l.objectives
                content := body.content.getD l.content
                resources := body.resources.getD l.resources
                updatedAt := now }) := by
      rw [putLesson, hget]
    refine ⟨{ l with
        title := body.title.getD l.title
        gradeLevel := body.gradeLevel.getD l.gradeLevel
        duration := body.duration.getD l.duration
        objectives := body.objectives.getD l.objectives
        content := body.content.getD l.content
        resources := body.resources.getD l.resources
        updatedAt := now }, by rw [hput], rfl, rfl, rfl, rfl, rfl, rfl, rfl, rfl, ?_, ?_⟩
    · rw [hput]
      show mapGet (mapSet store l.id _) id = _
      rw [hid]
      exact mapGet_mapSet_self store id _ (mapHas_of_get store id l hget)
    · intro k hk
      rw [hput]
      show mapGet (mapSet store l.id _) k = _
      rw [hid]
      exact mapGet_mapSet_other store id k _ hk
  · intro store2 id2 body2 now2 hnone
    rw [putLesson, hnone]
  · intro store2 id2 hnone
    rw [deleteLesson, if_neg]
    rw [mapHas_false_of_get_none store2 id2 hnone]
    exact Bool.false_ne_true

theorem lesson_put_delete_spec_witness :
    mapGet wstore "a" = some wlessonA
    ∧ (∃ u, (putLesson wstore "a" wbody "T1").1 = Except.ok u
        ∧ u.title = "New title" ∧ u.content = wlessonA.content ∧ u.updatedAt = "T1")
    ∧ mapGet (putLesson wstore "a" wbody "T1").2 "b" = some wlessonB
    ∧ putLesson wstore "zzz" wbody "T1" = (Except.error "Lesson not found", wstore)
    ∧ deleteLesson wstore "zzz" = (Except.error "Lesson not found", wstore) := by
  have h := lesson_put_delete_spec wstore "a" wbody "T1" wlessonA rfl rfl
  obtain ⟨u, hu, huid, hupd, htitle, hgrade, hdur, hobj, hcont, hres, hgetu, hframe⟩ := h.1
  refine ⟨rfl, ⟨u, hu, ?_, ?_, hupd⟩, ?_, ?_, ?_⟩
  · rw [htitle]
    rfl
  · rw [hcont]
    rfl
  · rw [hframe "b" (by decide)]
    rfl
  · exact h.2.1 wstore "zzz" wbody "T1" rfl
  · exact h.2.2 wstore "zzz" rfl

end LlmEdu
